import Mathlib

/-!
Verification of the pricing core of the Balancer subgraph
(`src/mappings/pricing.ts`): USD valuation of tokens, swaps and pool
liquidity, latest-price tracking, and the pool-liquidity update pass.

The entity store of The Graph is modelled as association lists keyed by
entity id (one field per entity kind), with `load` as first-match lookup
and `save` as replace-or-append upsert.  `BigDecimal` is modelled as `ℚ`,
addresses and entity ids as `String` (an address stands for its canonical
hex string).  Collaborator helpers that are not part of the pricing source
(`getToken`, `loadPoolToken`, `hasVirtualSupply`, the snapshot utilities)
are modelled from the spec, as marked on each definition.
-/

namespace BalancerPricing

/-- Addresses are modelled by their canonical hex-string form. -/
abbrev Address := String

/-- `BigDecimal` of graph-ts is arbitrary-precision decimal arithmetic;
modelled by the rationals. -/
abbrev BigDecimal := ℚ

def ZERO_BD : BigDecimal := 0

def ONE_BD : BigDecimal := 1

def ZERO_ADDRESS : Address := "0x0000000000000000000000000000000000000000"

/-- A `Token` entity: `latestUSDPrice` is absent until the first price
observation; `latestPrice` is the back-reference to a LatestPrice id.
The entity id (the token address) is the store key. -/
structure Token where
  latestUSDPrice : Option BigDecimal := none
  latestPrice : Option String := none
  deriving DecidableEq, Repr

/-- A `LatestPrice` entity, keyed by `getLatestPriceId asset pricingAsset`. -/
structure LatestPrice where
  id : String
  asset : Address
  pricingAsset : Address
  block : Nat
  poolId : String
  price : BigDecimal
  deriving DecidableEq, Repr

/-- A `TokenPrice` observation, produced externally and consumed by
`updateLatestPrice`. -/
structure TokenPrice where
  asset : Address
  pricingAsset : Address
  block : Nat
  poolId : String
  price : BigDecimal
  deriving DecidableEq, Repr

/-- A `PoolToken` entity holding the balance of one token inside one pool;
keyed by the pair (poolId, tokenAddress). -/
structure PoolToken where
  balance : BigDecimal
  deriving DecidableEq, Repr

/-- A `Pool` entity.  `virtualSupply` records the pool-variant capability
returned by the external `hasVirtualSupply` query (spec section 6): whether
the pool's own share-token balance is treated as virtual supply. -/
structure Pool where
  id : String
  address : Address
  tokensList : List Address
  totalShares : BigDecimal
  totalLiquidity : BigDecimal
  virtualSupply : Bool
  deriving DecidableEq, Repr

/-- A `PoolHistoricalLiquidity` snapshot row, keyed by
`getPoolHistoricalLiquidityId`. -/
structure PoolHistoricalLiquidity where
  id : String
  poolId : String
  pricingAsset : Address
  block : Nat
  poolTotalShares : BigDecimal
  poolLiquidity : BigDecimal
  poolShareValue : BigDecimal
  deriving DecidableEq, Repr

/-- The `Balancer` global-aggregate singleton (id "2" in the source). -/
structure Balancer where
  id : String
  totalLiquidity : BigDecimal
  deriving DecidableEq, Repr

/-- The entity store.  Each entity kind is an association list keyed by its
id; the Balancer singleton is kept as a plain field since the source
asserts its presence (`Balancer.load('2') as Balancer`).  The snapshot
collections model the external snapshot collaborators (spec section 6). -/
structure Store where
  pools : List (String × Pool)
  poolTokens : List ((String × Address) × PoolToken)
  tokens : List (Address × Token)
  latestPrices : List (String × LatestPrice)
  historicalLiquidity : List (String × PoolHistoricalLiquidity)
  balancer : Balancer
  poolSnapshots : List ((String × Int) × Pool)
  balancerSnapshots : List ((String × Int) × BigDecimal)
  deriving DecidableEq, Repr

/-- First-match lookup in an association list: the `load` of the entity
store. -/
def findRec {α β : Type} [DecidableEq α] (k : α) : List (α × β) → Option β
  | [] => none
  | e :: rest => if e.1 = k then some e.2 else findRec k rest

/-- Replace-or-append upsert in an association list: the `save` of the
entity store. -/
def upsert {α β : Type} [DecidableEq α] (k : α) (v : β) : List (α × β) → List (α × β)
  | [] => [(k, v)]
  | e :: rest => if e.1 = k then (k, v) :: rest else e :: upsert k v rest

/-- Modelled from the spec: `getToken` (helpers/misc, not part of the
pricing source) returns the Token entity for an address; per spec section 3
a Token's `latestUSDPrice` is absent until the first observation, so a
token not yet in the store reads as a fresh Token with absent fields. -/
def getToken (s : Store) (a : Address) : Token :=
  (findRec a s.tokens).getD {}

/-- Save a Token entity under its address id. -/
def saveToken (s : Store) (a : Address) (t : Token) : Store :=
  { s with tokens := upsert a t s.tokens }

/-- Modelled from the spec: `loadPoolToken` (helpers/misc, not part of the
pricing source) loads the per-pool balance record for (poolId,
tokenAddress); absent records are allowed (spec section 4.4 step 2). -/
def loadPoolToken (s : Store) (poolId : String) (a : Address) : Option PoolToken :=
  findRec (poolId, a) s.poolTokens

/-- Modelled from the spec: the pool-variant capability query
`hasVirtualSupply` (helpers/pools, not part of the pricing source), spec
section 6; modelled as a capability bit carried on the Pool entity. -/
def hasVirtualSupply (pool : Pool) : Bool :=
  pool.virtualSupply

/-- Modelled from the spec: the external snapshot collaborator
`createPoolSnapshot` (spec sections 4.4e and 6), an upsert of the pool
state keyed by pool id and time bucket; the bucketing function is external,
so the raw timestamp stands for the bucket. -/
def createPoolSnapshot (s : Store) (pool : Pool) (timestamp : Int) : Store :=
  { s with poolSnapshots := upsert (pool.id, timestamp) pool s.poolSnapshots }

/-- Modelled from the spec: `getBalancerSnapshot` followed by the mirror of
the aggregate total (spec section 4.4 step f), an upsert keyed by aggregate
id and time bucket. -/
def saveBalancerSnapshot (s : Store) (vaultId : String) (timestamp : Int)
    (totalLiquidity : BigDecimal) : Store :=
  { s with balancerSnapshots := upsert (vaultId, timestamp) totalLiquidity s.balancerSnapshots }

variable (PRICING_ASSETS USD_STABLE_ASSETS : List Address)

/-- `isPricingAsset` from the source: membership in the ordered
PRICING_ASSETS registry. -/
def isPricingAsset (asset : Address) : Bool :=
  PRICING_ASSETS.contains asset

/-- `isUSDStable` from the source: membership in the USD_STABLE_ASSETS
registry. -/
def isUSDStable (asset : Address) : Bool :=
  USD_STABLE_ASSETS.contains asset

/-- `getPreferentialPricingAsset` from the source: first pricing asset, in
registry preference order, present among the candidates; `ZERO_ADDRESS`
when none is. -/
def getPreferentialPricingAsset (assets : List Address) : Address :=
  match PRICING_ASSETS.find? (fun p => assets.contains p) with
  | some p => p
  | none => ZERO_ADDRESS

/-- `valueInUSD` from the source: a USD-stable asset is worth its amount;
otherwise the token's `latestUSDPrice` scales the amount, and an absent
price yields zero. -/
def valueInUSD (s : Store) (value : BigDecimal) (asset : Address) : BigDecimal :=
  if isUSDStable USD_STABLE_ASSETS asset then
    value
  else
    match (getToken s asset).latestUSDPrice with
    | some latestUSDPrice => value * latestUSDPrice
    | none => ZERO_BD

/-- `swapValueInUSD` from the source: precedence of stable-out, stable-in,
the single pricing-asset side, then the averaged (or undivided) sum. -/
def swapValueInUSD (s : Store) (tokenInAddress : Address) (tokenAmountIn : BigDecimal)
    (tokenOutAddress : Address) (tokenAmountOut : BigDecimal) : BigDecimal :=
  if isUSDStable USD_STABLE_ASSETS tokenOutAddress then
    valueInUSD USD_STABLE_ASSETS s tokenAmountOut tokenOutAddress
  else if isUSDStable USD_STABLE_ASSETS tokenInAddress then
    valueInUSD USD_STABLE_ASSETS s tokenAmountIn tokenInAddress
  else if isPricingAsset PRICING_ASSETS tokenInAddress &&
      !(isPricingAsset PRICING_ASSETS tokenOutAddress) then
    valueInUSD USD_STABLE_ASSETS s tokenAmountIn tokenInAddress
  else if isPricingAsset PRICING_ASSETS tokenOutAddress &&
      !(isPricingAsset PRICING_ASSETS tokenInAddress) then
    valueInUSD USD_STABLE_ASSETS s tokenAmountOut tokenOutAddress
  else
    let tokenInSwapValueUSD := valueInUSD USD_STABLE_ASSETS s tokenAmountIn tokenInAddress
    let tokenOutSwapValueUSD := valueInUSD USD_STABLE_ASSETS s tokenAmountOut tokenOutAddress
    let divisor : BigDecimal :=
      if tokenInSwapValueUSD > ZERO_BD ∧ tokenOutSwapValueUSD > ZERO_BD then 2 else ONE_BD
    (tokenInSwapValueUSD + tokenOutSwapValueUSD) / divisor

/-- `getLatestPriceId` from the source: hyphen-joined pair of address
strings. -/
def getLatestPriceId (tokenAddress : Address) (pricingAsset : Address) : String :=
  tokenAddress ++ "-" ++ pricingAsset

/-- `updateLatestPrice` from the source: upsert the LatestPrice record for
the observation's (asset, pricingAsset), overwriting block, poolId and
price unconditionally, then recompute the asset Token's `latestUSDPrice`
and its back-reference. -/
def updateLatestPrice (s : Store) (tokenPrice : TokenPrice) : Store :=
  let tokenAddress := tokenPrice.asset
  let pricingAsset := tokenPrice.pricingAsset
  let latestPriceId := getLatestPriceId tokenAddress pricingAsset
  let base : LatestPrice :=
    match findRec latestPriceId s.latestPrices with
    | some lp => lp
    | none =>
        { id := latestPriceId, asset := tokenPrice.asset,
          pricingAsset := tokenPrice.pricingAsset, block := tokenPrice.block,
          poolId := tokenPrice.poolId, price := tokenPrice.price }
  let latestPrice :=
    { base with block := tokenPrice.block, poolId := tokenPrice.poolId,
                price := tokenPrice.price }
  let s1 := { s with latestPrices := upsert latestPrice.id latestPrice s.latestPrices }
  let token := getToken s1 tokenAddress
  let tokenInUSD := valueInUSD USD_STABLE_ASSETS s1 tokenPrice.price pricingAsset
  saveToken s1 tokenAddress
    { token with latestUSDPrice := some tokenInUSD, latestPrice := some latestPrice.id }

/-- `updateBptPrice` from the source: with zero total shares, a no-op;
otherwise the pool's own token gets `latestUSDPrice =
totalLiquidity / totalShares`. -/
def updateBptPrice (s : Store) (pool : Pool) : Store :=
  if pool.totalShares = ZERO_BD then
    s
  else
    let bptToken := getToken s pool.address
    saveToken s pool.address
      { bptToken with latestUSDPrice := some (pool.totalLiquidity / pool.totalShares) }

/-- `getPoolHistoricalLiquidityId` from the source. -/
def getPoolHistoricalLiquidityId (poolId : String) (tokenAddress : Address) (block : Nat) : String :=
  poolId ++ "-" ++ tokenAddress ++ "-" ++ toString block

/-- Body of the ACCUMULATE loop of `updatePoolLiquidity`: the USD amount
one listed token adds to the running total.  Skips (absent balance record,
absent `latestUSDPrice`, virtual-supply share token) contribute zero. -/
def tokenContribution (s : Store) (poolId : String) (pool : Pool) (tokenAddress : Address) :
    BigDecimal :=
  match loadPoolToken s poolId tokenAddress with
  | none => ZERO_BD
  | some poolToken =>
    match (getToken s tokenAddress).latestUSDPrice with
    | none => ZERO_BD
    | some tokenLatestUSDPrice =>
      if hasVirtualSupply pool ∧ pool.address = tokenAddress then ZERO_BD
      else tokenLatestUSDPrice * poolToken.balance

/-- The ACCUMULATE loop of `updatePoolLiquidity`: fold of the per-token
contributions over the pool's token list. -/
def poolValueUSDOf (s : Store) (poolId : String) (pool : Pool) : BigDecimal :=
  pool.tokensList.foldl (fun acc t => acc + tokenContribution s poolId pool t) ZERO_BD

/-- `updatePoolLiquidity` from the source: load the pool, require at least
two listed tokens, accumulate the USD total, run the sanity check exactly
as written (`poolValueUSD.gt(0) != newPoolLiquidity.gt(0)`), then commit
the snapshot row, the pool total, the BPT price, the pool snapshot, the
aggregate delta and the aggregate snapshot. -/
def updatePoolLiquidity (s : Store) (poolId : String) (block : Nat) (timestamp : Int) :
    Bool × Store :=
  match findRec poolId s.pools with
  | none => (false, s)
  | some pool =>
    if pool.tokensList.length < 2 then (false, s)
    else
      let poolValueUSD : BigDecimal := poolValueUSDOf s poolId pool
      let oldPoolLiquidity : BigDecimal := pool.totalLiquidity
      let newPoolLiquidity : BigDecimal := poolValueUSD
      let liquidityChange : BigDecimal := newPoolLiquidity - oldPoolLiquidity
      if (decide (poolValueUSD > ZERO_BD)) != (decide (newPoolLiquidity > ZERO_BD)) then
        (false, s)
      else
        let phlId := getPoolHistoricalLiquidityId poolId
          (USD_STABLE_ASSETS.headD ZERO_ADDRESS) block
        let phl : PoolHistoricalLiquidity :=
          { id := phlId, poolId := poolId,
            pricingAsset := USD_STABLE_ASSETS.headD ZERO_ADDRESS, block := block,
            poolTotalShares := pool.totalShares, poolLiquidity := poolValueUSD,
            poolShareValue :=
              if pool.totalShares > ZERO_BD then poolValueUSD / pool.totalShares else ZERO_BD }
        let s1 := { s with historicalLiquidity := upsert phlId phl s.historicalLiquidity }
        let pool1 := { pool with totalLiquidity := newPoolLiquidity }
        let s2 := { s1 with pools := upsert pool1.id pool1 s1.pools }
        let s3 := updateBptPrice s2 pool1
        let s4 := createPoolSnapshot s3 pool1 timestamp
        let vault := s4.balancer
        let vault1 := { vault with totalLiquidity := vault.totalLiquidity + liquidityChange }
        let s5 := { s4 with balancer := vault1 }
        let s6 := saveBalancerSnapshot s5 vault1.id timestamp vault1.totalLiquidity
        (true, s6)

/-- The Balancer singleton as initialised by the surrounding system. -/
def vault0 : Balancer := { id := "2", totalLiquidity := 0 }

/-- A store with no entities, used as base for the concrete test stores. -/
def emptyStore : Store :=
  { pools := [], poolTokens := [], tokens := [], latestPrices := [],
    historicalLiquidity := [], balancer := vault0, poolSnapshots := [],
    balancerSnapshots := [] }

/-- A one-token pool (malformed for valuation purposes). -/
def poolOne : Pool :=
  { id := "r", address := "br", tokensList := ["A"], totalShares := 0,
    totalLiquidity := 0, virtualSupply := false }

/-- Store holding only the one-token pool. -/
def sOne : Store := { emptyStore with pools := [("r", poolOne)] }

/-- Store with two priced tokens (W at 3 USD, V at 5 USD) and nothing
else, for concrete valuation checks. -/
def sTok : Store :=
  { emptyStore with
    tokens := [("W", { latestUSDPrice := some 3 }), ("V", { latestUSDPrice := some 5 })] }

/-- Two-token pool with prior totalLiquidity 40 USD. -/
def poolBad : Pool :=
  { id := "p", address := "bp", tokensList := ["A", "B"], totalShares := 20,
    totalLiquidity := 40, virtualSupply := false }

/-- Store where the pool with prior liquidity 40 has balances recorded but
both tokens have lost their USD prices: the recomputed total is 0. -/
def sBad : Store :=
  { emptyStore with
    pools := [("p", poolBad)],
    poolTokens := [(("p", "A"), ⟨10⟩), (("p", "B"), ⟨5⟩)] }

/-- Two-token pool holding the USD-stable token USDC and the token W. -/
def poolC2 : Pool :=
  { id := "q", address := "bq", tokensList := ["USDC", "W"], totalShares := 0,
    totalLiquidity := 25, virtualSupply := false }

/-- Store where USDC (USD-stable) has balance 5 but no recorded
`latestUSDPrice`, and W has balance 10 at price 2 USD. -/
def sC2 : Store :=
  { emptyStore with
    pools := [("q", poolC2)],
    poolTokens := [(("q", "USDC"), ⟨5⟩), (("q", "W"), ⟨10⟩)],
    tokens := [("W", { latestUSDPrice := some 2 })] }

/-- Two-token pool with 20 total shares. -/
def pool40 : Pool :=
  { id := "w", address := "bw", tokensList := ["A2", "B2"], totalShares := 20,
    totalLiquidity := 0, virtualSupply := false }

/-- Store with token A2 (balance 10, price 2 USD) and B2 (balance 5, price
4 USD) in the pool: total value 40 USD. -/
def s40 : Store :=
  { emptyStore with
    pools := [("w", pool40)],
    poolTokens := [(("w", "A2"), ⟨10⟩), (("w", "B2"), ⟨5⟩)],
    tokens := [("A2", { latestUSDPrice := some 2 }), ("B2", { latestUSDPrice := some 4 })] }

/-- Pool p for the aggregate-delta test: value 10 USD, prior liquidity 0. -/
def poolP : Pool :=
  { id := "p", address := "bp", tokensList := ["A", "B"], totalShares := 0,
    totalLiquidity := 0, virtualSupply := false }

/-- Pool q for the aggregate-delta test: value 15 USD, prior liquidity 0. -/
def poolQ : Pool :=
  { id := "q", address := "bq", tokensList := ["C", "D"], totalShares := 0,
    totalLiquidity := 0, virtualSupply := false }

/-- Store with the two pools p (A: balance 10 at 1 USD, B unpriced) and q
(C: balance 5 at 3 USD, D unpriced) and a global aggregate of 100 USD. -/
def sGlobal : Store :=
  { emptyStore with
    balancer := { id := "2", totalLiquidity := 100 },
    pools := [("p", poolP), ("q", poolQ)],
    poolTokens := [(("p", "A"), ⟨10⟩), (("p", "B"), ⟨3⟩),
                   (("q", "C"), ⟨5⟩), (("q", "D"), ⟨1⟩)],
    tokens := [("A", { latestUSDPrice := some 1 }), ("C", { latestUSDPrice := some 3 })] }

end BalancerPricing

namespace BalancerPricing

/-- Lookup after upsert at the same key finds the new value. -/
theorem findRec_upsert_self {α β : Type} [DecidableEq α] (k : α) (v : β)
    (l : List (α × β)) : findRec k (upsert k v l) = some v := by
  induction l with
  | nil => simp [upsert, findRec]
  | cons e rest ih =>
    by_cases h : e.1 = k
    · simp [upsert, h, findRec]
    · simp [upsert, h, findRec, ih]

/-- Upsert leaves exactly one entry at its key when the key had at most
`max count 1` entries: the count after upsert is `max count 1`. -/
theorem countP_upsert {α β : Type} [DecidableEq α] (k : α) (v : β)
    (l : List (α × β)) :
    ((upsert k v l).countP fun e => decide (e.1 = k)) =
      max (l.countP fun e => decide (e.1 = k)) 1 := by
  induction l with
  | nil => simp [upsert]
  | cons e rest ih =>
    by_cases h : e.1 = k
    · simp [upsert, h, List.countP_cons]
    · simp [upsert, h, List.countP_cons, ih]

/-- A key with zero entries is not found. -/
theorem findRec_eq_none_of_countP_eq_zero {α β : Type} [DecidableEq α] (k : α)
    (l : List (α × β)) (h : (l.countP fun e => decide (e.1 = k)) = 0) :
    findRec k l = none := by
  induction l with
  | nil => rfl
  | cons e rest ih =>
    by_cases he : e.1 = k
    · have hc : ((e :: rest).countP fun x => decide (x.1 = k)) =
          (rest.countP fun x => decide (x.1 = k)) + 1 := by
        simp [List.countP_cons, he]
      rw [hc] at h
      exact absurd h (by omega)
    · have hc : ((e :: rest).countP fun x => decide (x.1 = k)) =
          (rest.countP fun x => decide (x.1 = k)) := by
        simp [List.countP_cons, he]
      rw [hc] at h
      simp [findRec, he, ih h]

/-- `updateBptPrice` touches only the Token collection: pools preserved. -/
theorem updateBptPrice_pools (s : Store) (p : Pool) :
    (updateBptPrice s p).pools = s.pools := by
  unfold updateBptPrice saveToken
  split <;> rfl

/-- `updateBptPrice` touches only the Token collection: snapshot rows
preserved. -/
theorem updateBptPrice_historicalLiquidity (s : Store) (p : Pool) :
    (updateBptPrice s p).historicalLiquidity = s.historicalLiquidity := by
  unfold updateBptPrice saveToken
  split <;> rfl

/-- `updateBptPrice` touches only the Token collection: aggregate
preserved. -/
theorem updateBptPrice_balancer (s : Store) (p : Pool) :
    (updateBptPrice s p).balancer = s.balancer := by
  unfold updateBptPrice saveToken
  split <;> rfl

/-- The accumulation fold is the sum of the per-token contributions. -/
theorem foldl_add_map (f : Address → BigDecimal) (l : List Address) (a : BigDecimal) :
    l.foldl (fun acc t => acc + f t) a = a + (l.map f).sum := by
  induction l generalizing a with
  | nil => simp
  | cons t rest ih => simp [ih, add_assoc]

/-- The ACCUMULATE loop computes the sum of the listed tokens'
contributions. -/
theorem poolValueUSDOf_eq_sum (s : Store) (pid : String) (pool : Pool) :
    poolValueUSDOf s pid pool = (pool.tokensList.map (tokenContribution s pid pool)).sum := by
  simp [poolValueUSDOf, foldl_add_map, ZERO_BD]

/-- C7: for a pool absent from the store, and for a stored pool whose
`tokensList` has fewer than 2 entries, `updatePoolLiquidity` returns false
and leaves the store exactly as it was: no entity is created or saved. -/
theorem updatePoolLiquidity_malformed (USDS : List Address) (s : Store) (poolId : String)
    (block : Nat) (ts : Int)
    (h : ∀ pool, findRec poolId s.pools = some pool → pool.tokensList.length < 2) :
    updatePoolLiquidity USDS s poolId block ts = (false, s) := by
  cases hp : findRec poolId s.pools with
  | none => simp [updatePoolLiquidity, hp]
  | some pool => simp [updatePoolLiquidity, hp, h pool hp]

/-- Witness for C7: on the store holding only a one-token pool, the call
returns false with the store unchanged. -/
theorem updatePoolLiquidity_malformed_witness :
    updatePoolLiquidity ["USDC"] sOne "r" 1 0 = (false, sOne) := by
  refine updatePoolLiquidity_malformed ["USDC"] sOne "r" 1 0 ?_
  intro pool hp
  simp [sOne, emptyStore, findRec] at hp
  rw [← hp]
  decide

/-- C10: `updatePoolLiquidity` returns false exactly when the pool is
absent or lists fewer than 2 tokens; whenever the pool exists with at
least 2 listed tokens the call commits and returns true, for every store —
the sanity check compares the new total with itself and never aborts,
whatever the token prices or the prior `totalLiquidity`. -/
theorem updatePoolLiquidity_true_iff (USDS : List Address) (s : Store) (poolId : String)
    (block : Nat) (ts : Int) :
    (updatePoolLiquidity USDS s poolId block ts).1 = true ↔
      ∃ pool, findRec poolId s.pools = some pool ∧ 2 ≤ pool.tokensList.length := by
  cases hp : findRec poolId s.pools with
  | none => simp [updatePoolLiquidity, hp]
  | some pool =>
    by_cases hl : pool.tokensList.length < 2
    · simp [updatePoolLiquidity, hp, hl]
    · simp [updatePoolLiquidity, hp, hl]
      omega

/-- C3: `valueInUSD` on a USD-stable asset returns the amount unchanged;
on a non-stable asset with no recorded `latestUSDPrice` it returns zero;
on a non-stable asset with a recorded price it returns amount times that
price.  Being a total function, it never raises an error. -/
theorem valueInUSD_spec (USDS : List Address) (s : Store) (x : BigDecimal) (a : Address) :
    (isUSDStable USDS a = true → valueInUSD USDS s x a = x) ∧
    (isUSDStable USDS a = false → (getToken s a).latestUSDPrice = none →
      valueInUSD USDS s x a = 0) ∧
    (∀ p : BigDecimal, isUSDStable USDS a = false →
      (getToken s a).latestUSDPrice = some p → valueInUSD USDS s x a = x * p) := by
  refine ⟨fun h => ?_, fun h hn => ?_, fun p h hp => ?_⟩
  · simp [valueInUSD, h]
  · simp [valueInUSD, h, hn, ZERO_BD]
  · simp [valueInUSD, h, hp]

/-- Witness for C3: on the concrete store, the stable asset USDC values 7
as 7, the unpriced asset X values 7 as 0, and W (priced at 3) values 7 as
21. -/
theorem valueInUSD_spec_witness :
    valueInUSD ["USDC"] sTok 7 "USDC" = 7 ∧ valueInUSD ["USDC"] sTok 7 "X" = 0 ∧
      valueInUSD ["USDC"] sTok 7 "W" = 21 :=
  ⟨(valueInUSD_spec ["USDC"] sTok 7 "USDC").1 (by decide),
   (valueInUSD_spec ["USDC"] sTok 7 "X").2.1 (by decide) (by decide),
   by
     rw [(valueInUSD_spec ["USDC"] sTok 7 "W").2.2 3 (by decide) (by decide)]
     norm_num⟩

/-- C4: `swapValueInUSD` follows the exact precedence: a USD-stable out
side, then a USD-stable in side, then the unique pricing-asset side, then
(both or neither side a pricing asset) the sum of both sides' USD values
halved when both are strictly positive and taken undivided otherwise. -/
theorem swapValueInUSD_spec (PA USDS : List Address) (s : Store)
    (ain : Address) (xin : BigDecimal) (aout : Address) (xout : BigDecimal) :
    (isUSDStable USDS aout = true →
      swapValueInUSD PA USDS s ain xin aout xout = valueInUSD USDS s xout aout) ∧
    (isUSDStable USDS aout = false → isUSDStable USDS ain = true →
      swapValueInUSD PA USDS s ain xin aout xout = valueInUSD USDS s xin ain) ∧
    (isUSDStable USDS aout = false → isUSDStable USDS ain = false →
      isPricingAsset PA ain = true → isPricingAsset PA aout = false →
      swapValueInUSD PA USDS s ain xin aout xout = valueInUSD USDS s xin ain) ∧
    (isUSDStable USDS aout = false → isUSDStable USDS ain = false →
      isPricingAsset PA ain = false → isPricingAsset PA aout = true →
      swapValueInUSD PA USDS s ain xin aout xout = valueInUSD USDS s xout aout) ∧
    (isUSDStable USDS aout = false → isUSDStable USDS ain = false →
      isPricingAsset PA ain = isPricingAsset PA aout →
      swapValueInUSD PA USDS s ain xin aout xout =
        if valueInUSD USDS s xin ain > 0 ∧ valueInUSD USDS s xout aout > 0 then
          (valueInUSD USDS s xin ain + valueInUSD USDS s xout aout) / 2
        else valueInUSD USDS s xin ain + valueInUSD USDS s xout aout) := by
  refine ⟨fun h1 => ?_, fun h1 h2 => ?_, fun h1 h2 h3 h4 => ?_, fun h1 h2 h3 h4 => ?_,
    fun h1 h2 h3 => ?_⟩
  · simp [swapValueInUSD, h1]
  · simp [swapValueInUSD, h1, h2]
  · simp [swapValueInUSD, h1, h2, h3, h4]
  · simp [swapValueInUSD, h1, h2, h3, h4]
  · by_cases hc : valueInUSD USDS s xin ain > 0 ∧ valueInUSD USDS s xout aout > 0
    · cases hb : isPricingAsset PA ain with
      | false => simp [swapValueInUSD, h1, h2, hb, ← h3, hc, ZERO_BD]
      | true => simp [swapValueInUSD, h1, h2, hb, ← h3, hc, ZERO_BD]
    · cases hb : isPricingAsset PA ain with
      | false => simp [swapValueInUSD, h1, h2, hb, ← h3, hc, ZERO_BD, ONE_BD]
      | true => simp [swapValueInUSD, h1, h2, hb, ← h3, hc, ZERO_BD, ONE_BD]

/-- Witness for C4: all five branches at concrete assets, with W and V the
pricing assets (priced 3 and 5 USD) and USDC the stable asset. -/
theorem swapValueInUSD_spec_witness :
    swapValueInUSD ["W", "V"] ["USDC"] sTok "W" 7 "USDC" 9 = 9 ∧
    swapValueInUSD ["W", "V"] ["USDC"] sTok "USDC" 7 "X" 9 = 7 ∧
    swapValueInUSD ["W", "V"] ["USDC"] sTok "W" 7 "X" 9 = 21 ∧
    swapValueInUSD ["W", "V"] ["USDC"] sTok "X" 7 "W" 9 = 27 ∧
    swapValueInUSD ["W", "V"] ["USDC"] sTok "W" 7 "V" 2 = 31 / 2 :=
  ⟨(swapValueInUSD_spec ["W", "V"] ["USDC"] sTok "W" 7 "USDC" 9).1 (by decide),
   (swapValueInUSD_spec ["W", "V"] ["USDC"] sTok "USDC" 7 "X" 9).2.1 (by decide) (by decide),
   by
     rw [(swapValueInUSD_spec ["W", "V"] ["USDC"] sTok "W" 7 "X" 9).2.2.1 (by decide)
       (by decide) (by decide) (by decide)]
     simp [valueInUSD, isUSDStable, getToken, findRec, sTok, emptyStore, ZERO_BD]
     norm_num,
   by
     rw [(swapValueInUSD_spec ["W", "V"] ["USDC"] sTok "X" 7 "W" 9).2.2.2.1 (by decide)
       (by decide) (by decide) (by decide)]
     simp [valueInUSD, isUSDStable, getToken, findRec, sTok, emptyStore, ZERO_BD]
     norm_num,
   by
     rw [(swapValueInUSD_spec ["W", "V"] ["USDC"] sTok "W" 7 "V" 2).2.2.2.2 (by decide)
       (by decide) (by decide)]
     simp [valueInUSD, isUSDStable, getToken, findRec, sTok, emptyStore, ZERO_BD]
     norm_num⟩

/-- C5: two `updateLatestPrice` observations for the same (asset,
pricingAsset) pair, starting from a store with no record for that pair,
leave exactly one LatestPrice record for the pair; its block, poolId and
price fields are those of the second observation (last write wins, in any
block order, no staleness rejection), and its asset and pricingAsset
fields are the ones fixed at creation. -/
theorem updateLatestPrice_last_write_wins (USDS : List Address) (s : Store)
    (a p : Address) (b1 b2 : Nat) (q1 q2 : String) (x1 x2 : BigDecimal)
    (h0 : (s.latestPrices.countP fun e => decide (e.1 = getLatestPriceId a p)) = 0) :
    ((updateLatestPrice USDS (updateLatestPrice USDS s ⟨a, p, b1, q1, x1⟩)
        ⟨a, p, b2, q2, x2⟩).latestPrices.countP
      fun e => decide (e.1 = getLatestPriceId a p)) = 1 ∧
    findRec (getLatestPriceId a p)
        (updateLatestPrice USDS (updateLatestPrice USDS s ⟨a, p, b1, q1, x1⟩)
          ⟨a, p, b2, q2, x2⟩).latestPrices =
      some { id := getLatestPriceId a p, asset := a, pricingAsset := p,
             block := b2, poolId := q2, price := x2 } := by
  have hn : findRec (getLatestPriceId a p) s.latestPrices = none :=
    findRec_eq_none_of_countP_eq_zero _ _ h0
  constructor
  · simp [updateLatestPrice, saveToken, hn, findRec_upsert_self, countP_upsert, h0]
  · simp [updateLatestPrice, saveToken, hn, findRec_upsert_self]

/-- Witness for C5: two concrete observations for the pair (T, USDC), the
second at an earlier block, leave one record carrying the second's block,
poolId and price. -/
theorem updateLatestPrice_last_write_wins_witness :
    ((updateLatestPrice ["USDC"] (updateLatestPrice ["USDC"] emptyStore
        ⟨"T", "USDC", 5, "p", 3⟩) ⟨"T", "USDC", 2, "q", 7⟩).latestPrices.countP
      fun e => decide (e.1 = getLatestPriceId "T" "USDC")) = 1 ∧
    findRec (getLatestPriceId "T" "USDC")
        (updateLatestPrice ["USDC"] (updateLatestPrice ["USDC"] emptyStore
          ⟨"T", "USDC", 5, "p", 3⟩) ⟨"T", "USDC", 2, "q", 7⟩).latestPrices =
      some { id := getLatestPriceId "T" "USDC", asset := "T", pricingAsset := "USDC",
             block := 2, poolId := "q", price := 7 } :=
  updateLatestPrice_last_write_wins ["USDC"] emptyStore "T" "USDC" 5 2 "p" "q" 3 7 rfl

/-- C6: after `updateLatestPrice` the asset's Token record carries
`latestUSDPrice = valueInUSD(observation.price, observation.pricingAsset)`
(the observation's price itself when the pricing asset is USD-stable, zero
when the pricing asset has no recorded USD price, per `valueInUSD`) and a
`latestPrice` back-reference to the upserted LatestPrice record; the
function is total, so the call always succeeds. -/
theorem updateLatestPrice_token_update (USDS : List Address) (s : Store) (o : TokenPrice)
    (hwf : ∀ lp, findRec (getLatestPriceId o.asset o.pricingAsset) s.latestPrices = some lp →
      lp.id = getLatestPriceId o.asset o.pricingAsset) :
    findRec o.asset (updateLatestPrice USDS s o).tokens =
      some { latestUSDPrice := some (valueInUSD USDS s o.price o.pricingAsset),
             latestPrice := some (getLatestPriceId o.asset o.pricingAsset) } := by
  cases hlp : findRec (getLatestPriceId o.asset o.pricingAsset) s.latestPrices with
  | none => simp [updateLatestPrice, saveToken, findRec_upsert_self, hlp, valueInUSD, getToken]
  | some lp =>
    simp [updateLatestPrice, saveToken, findRec_upsert_self, hlp, hwf lp hlp,
      valueInUSD, getToken]

/-- Witness for C6: a concrete observation of T priced 3 in USDC on the
empty store leaves T's Token with `latestUSDPrice = 3` and the
back-reference to the (T, USDC) LatestPrice record. -/
theorem updateLatestPrice_token_update_witness :
    findRec "T" (updateLatestPrice ["USDC"] emptyStore ⟨"T", "USDC", 5, "p", 3⟩).tokens =
      some { latestUSDPrice := some 3, latestPrice := some (getLatestPriceId "T" "USDC") } := by
  have h := updateLatestPrice_token_update ["USDC"] emptyStore ⟨"T", "USDC", 5, "p", 3⟩
    (by intro lp hlp; simp [emptyStore, findRec] at hlp)
  simpa [valueInUSD, isUSDStable] using h

/-- `updateBptPrice` touches only the Token collection: per-pool balances
preserved. -/
theorem updateBptPrice_poolTokens (s : Store) (p : Pool) :
    (updateBptPrice s p).poolTokens = s.poolTokens := by
  unfold updateBptPrice saveToken
  split <;> rfl

/-- Characterisation of the commit path: with the pool present and at
least two listed tokens, the call returns true, upserts the historical
row, upserts the pool with the recomputed total, adds the liquidity delta
to the aggregate, and leaves the per-pool balances untouched. -/
theorem updatePoolLiquidity_commit_core (USDS : List Address) (s : Store) (poolId : String)
    (block : Nat) (ts : Int) (pool : Pool)
    (hp : findRec poolId s.pools = some pool) (hlen : 2 ≤ pool.tokensList.length) :
    (updatePoolLiquidity USDS s poolId block ts).1 = true ∧
    ((updatePoolLiquidity USDS s poolId block ts).2).historicalLiquidity =
      upsert (getPoolHistoricalLiquidityId poolId (USDS.headD ZERO_ADDRESS) block)
        { id := getPoolHistoricalLiquidityId poolId (USDS.headD ZERO_ADDRESS) block,
          poolId := poolId, pricingAsset := USDS.headD ZERO_ADDRESS, block := block,
          poolTotalShares := pool.totalShares,
          poolLiquidity := poolValueUSDOf s poolId pool,
          poolShareValue := if pool.totalShares > ZERO_BD then
            poolValueUSDOf s poolId pool / pool.totalShares else ZERO_BD }
        s.historicalLiquidity ∧
    ((updatePoolLiquidity USDS s poolId block ts).2).pools =
      upsert pool.id { pool with totalLiquidity := poolValueUSDOf s poolId pool } s.pools ∧
    ((updatePoolLiquidity USDS s poolId block ts).2).balancer.totalLiquidity =
      s.balancer.totalLiquidity + (poolValueUSDOf s poolId pool - pool.totalLiquidity) ∧
    ((updatePoolLiquidity USDS s poolId block ts).2).poolTokens = s.poolTokens := by
  have hl : ¬pool.tokensList.length < 2 := by omega
  refine ⟨?_, ?_, ?_, ?_, ?_⟩ <;>
    simp [updatePoolLiquidity, hp, hl, createPoolSnapshot, saveBalancerSnapshot,
      updateBptPrice_pools, updateBptPrice_historicalLiquidity, updateBptPrice_balancer,
      updateBptPrice_poolTokens]

/-- `poolValueUSDOf` depends only on the per-pool balances and the Token
collection. -/
theorem poolValueUSDOf_congr (s s2 : Store) (pid : String) (pool : Pool)
    (hpt : s2.poolTokens = s.poolTokens) (htk : s2.tokens = s.tokens) :
    poolValueUSDOf s2 pid pool = poolValueUSDOf s pid pool := by
  simp [poolValueUSDOf, tokenContribution, loadPoolToken, getToken, hpt, htk]

/-- C8: on the commit path a PoolHistoricalLiquidity row keyed by (poolId,
first USD-stable asset, block) is written with `poolTotalShares` equal to
the pool's totalShares, `poolLiquidity` equal to the newly computed USD
total, and `poolShareValue` equal to the total divided by totalShares when
totalShares is positive and zero otherwise; the pool's totalLiquidity is
then set to the new total and persisted. -/
theorem updatePoolLiquidity_snapshot_row (USDS : List Address) (s : Store) (poolId : String)
    (block : Nat) (ts : Int) (pool : Pool)
    (hp : findRec poolId s.pools = some pool) (hlen : 2 ≤ pool.tokensList.length)
    (hid : pool.id = poolId) :
    findRec (getPoolHistoricalLiquidityId poolId (USDS.headD ZERO_ADDRESS) block)
        ((updatePoolLiquidity USDS s poolId block ts).2).historicalLiquidity =
      some { id := getPoolHistoricalLiquidityId poolId (USDS.headD ZERO_ADDRESS) block,
             poolId := poolId, pricingAsset := USDS.headD ZERO_ADDRESS, block := block,
             poolTotalShares := pool.totalShares,
             poolLiquidity := poolValueUSDOf s poolId pool,
             poolShareValue := if pool.totalShares > ZERO_BD then
               poolValueUSDOf s poolId pool / pool.totalShares else ZERO_BD } ∧
    findRec poolId ((updatePoolLiquidity USDS s poolId block ts).2).pools =
      some { pool with totalLiquidity := poolValueUSDOf s poolId pool } := by
  have h := updatePoolLiquidity_commit_core USDS s poolId block ts pool hp hlen
  refine ⟨?_, ?_⟩
  · rw [h.2.1, findRec_upsert_self]
  · rw [h.2.2.1, hid, findRec_upsert_self]

/-- Witness for C8: tokens A2 (balance 10, price 2) and B2 (balance 5,
price 4) give poolLiquidity 40; with 20 total shares, poolShareValue 2;
the pool's totalLiquidity becomes 40. -/
theorem updatePoolLiquidity_snapshot_row_witness :
    findRec (getPoolHistoricalLiquidityId "w" "USDC" 7)
        ((updatePoolLiquidity ["USDC"] s40 "w" 7 0).2).historicalLiquidity =
      some { id := getPoolHistoricalLiquidityId "w" "USDC" 7, poolId := "w",
             pricingAsset := "USDC", block := 7, poolTotalShares := 20,
             poolLiquidity := 40, poolShareValue := 2 } ∧
    findRec "w" ((updatePoolLiquidity ["USDC"] s40 "w" 7 0).2).pools =
      some { pool40 with totalLiquidity := 40 } := by
  have h := updatePoolLiquidity_snapshot_row ["USDC"] s40 "w" 7 0 pool40 rfl (by decide) rfl
  have hval : poolValueUSDOf s40 "w" pool40 = 40 := by
    simp [poolValueUSDOf, tokenContribution, loadPoolToken, getToken, findRec, s40, pool40,
      emptyStore, hasVirtualSupply, ZERO_BD]
    norm_num
  rw [hval] at h
  have hsv : (if pool40.totalShares > ZERO_BD then (40 : BigDecimal) / pool40.totalShares
      else ZERO_BD) = 2 := by
    norm_num [pool40, ZERO_BD]
  rw [hsv] at h
  exact h

/-- C1 at the spec's failing input (code behaviour): the pool's prior
totalLiquidity is 40 and every token price is absent, so the recomputed
total is 0 while the pool is non-empty; the sanity check compares the new
total against itself, so the call nevertheless returns true and
overwrites totalLiquidity with 0 — contradicting the source's own comment
that such a pass must not commit. -/
theorem updatePoolLiquidity_sanity_check_ineffective :
    (updatePoolLiquidity ["USDC"] sBad "p" 1 0).1 = true ∧
    findRec "p" ((updatePoolLiquidity ["USDC"] sBad "p" 1 0).2).pools =
      some { poolBad with totalLiquidity := 0 } := by
  have h := updatePoolLiquidity_commit_core ["USDC"] sBad "p" 1 0 poolBad rfl (by decide)
  have hval : poolValueUSDOf sBad "p" poolBad = 0 := by
    simp [poolValueUSDOf, tokenContribution, loadPoolToken, getToken, findRec, sBad, poolBad,
      emptyStore, ZERO_BD]
  refine ⟨h.1, ?_⟩
  rw [h.2.2.1, hval, show poolBad.id = "p" from rfl, findRec_upsert_self]
  rfl

/-- C2 counterexample: USDC is USD-stable, has a per-pool balance record
of 5 and no recorded latestUSDPrice, and is not excluded by the
virtual-supply rule; the loop accumulates 0 for it where `valueInUSD` of
its balance is 5, so the committed total is 20 where the claim's
per-token formula sums to 25. -/
theorem accumulate_usdStable_counterexample :
    tokenContribution sC2 "q" poolC2 "USDC" = 0 ∧
    valueInUSD ["USDC"] sC2 (((loadPoolToken sC2 "q" "USDC").getD ⟨0⟩).balance) "USDC" = 5 ∧
    findRec "q" ((updatePoolLiquidity ["USDC"] sC2 "q" 1 0).2).pools =
      some { poolC2 with totalLiquidity := 20 } ∧
    (poolC2.tokensList.map fun t =>
      valueInUSD ["USDC"] sC2 (((loadPoolToken sC2 "q" t).getD ⟨0⟩).balance) t).sum = 25 := by
  refine ⟨?_, ?_, ?_, ?_⟩
  · simp [tokenContribution, loadPoolToken, getToken, findRec, sC2, poolC2, emptyStore, ZERO_BD]
  · simp [valueInUSD, isUSDStable, loadPoolToken, findRec, sC2, emptyStore]
  · have h := updatePoolLiquidity_commit_core ["USDC"] sC2 "q" 1 0 poolC2 rfl (by decide)
    have hval : poolValueUSDOf sC2 "q" poolC2 = 20 := by
      simp [poolValueUSDOf, tokenContribution, loadPoolToken, getToken, findRec, sC2, poolC2,
        emptyStore, hasVirtualSupply, ZERO_BD]
      norm_num
    rw [h.2.2.1, hval, show poolC2.id = "q" from rfl, findRec_upsert_self]
    rfl
  · simp [valueInUSD, isUSDStable, getToken, loadPoolToken, findRec, sC2, poolC2, emptyStore,
      ZERO_BD]
    norm_num

/-- C2 amended: for every constituent token the amount accumulated into
the total is the token's balance times its recorded `latestUSDPrice` when
one exists and zero otherwise (absent balance records and the
virtual-supply share token also contribute zero) — the loop reads the
price directly and does not apply the USD-stable short-circuit of
`valueInUSD`, so a USD-stable token with no recorded price contributes
zero rather than its balance. -/
theorem updatePoolLiquidity_accumulate (USDS : List Address) (s : Store) (poolId : String)
    (block : Nat) (ts : Int) (pool : Pool)
    (hp : findRec poolId s.pools = some pool) (hlen : 2 ≤ pool.tokensList.length)
    (hid : pool.id = poolId) :
    findRec poolId ((updatePoolLiquidity USDS s poolId block ts).2).pools =
      some { pool with totalLiquidity :=
        (pool.tokensList.map fun t =>
          match loadPoolToken s poolId t with
          | none => 0
          | some poolToken =>
            match (getToken s t).latestUSDPrice with
            | none => 0
            | some price =>
              if hasVirtualSupply pool ∧ pool.address = t then 0
              else price * poolToken.balance).sum } := by
  have h := (updatePoolLiquidity_commit_core USDS s poolId block ts pool hp hlen).2.2.1
  rw [h, hid, findRec_upsert_self, poolValueUSDOf_eq_sum]
  congr 1

/-- Witness for the amended C2: on the concrete store the committed total
is 2 * 10 + 4 * 5 = 40. -/
theorem updatePoolLiquidity_accumulate_witness :
    findRec "w" ((updatePoolLiquidity ["USDC"] s40 "w" 9 0).2).pools =
      some { pool40 with totalLiquidity := 40 } := by
  have h := updatePoolLiquidity_accumulate ["USDC"] s40 "w" 9 0 pool40 rfl (by decide) rfl
  rw [h]
  simp [loadPoolToken, getToken, findRec, s40, pool40, emptyStore, hasVirtualSupply]
  norm_num

/-- C9: the aggregate is updated by adding the signed per-pool delta: two
committed calls in sequence whose pool liquidity changes are d1 and d2
leave the aggregate's totalLiquidity increased by exactly d1 + d2; the
statement is symmetric in the two pools, so it covers both processing
orders. -/
theorem updatePoolLiquidity_global_delta (USDS : List Address) (s s1 : Store)
    (p1 p2 : String) (b1 b2 : Nat) (t1 t2 : Int) (pool1 pool2 : Pool) (d1 d2 : BigDecimal)
    (hp1 : findRec p1 s.pools = some pool1) (hlen1 : 2 ≤ pool1.tokensList.length)
    (hd1 : poolValueUSDOf s p1 pool1 - pool1.totalLiquidity = d1)
    (hs1 : s1 = (updatePoolLiquidity USDS s p1 b1 t1).2)
    (hp2 : findRec p2 s1.pools = some pool2) (hlen2 : 2 ≤ pool2.tokensList.length)
    (hd2 : poolValueUSDOf s1 p2 pool2 - pool2.totalLiquidity = d2) :
    ((updatePoolLiquidity USDS s1 p2 b2 t2).2).balancer.totalLiquidity =
      s.balancer.totalLiquidity + (d1 + d2) := by
  have h2 := (updatePoolLiquidity_commit_core USDS s1 p2 b2 t2 pool2 hp2 hlen2).2.2.2.1
  have h1 := (updatePoolLiquidity_commit_core USDS s p1 b1 t1 pool1 hp1 hlen1).2.2.2.1
  rw [h2, hd2, hs1, h1, hd1]
  ring

/-- Witness for C9: pools p (delta 10) and q (delta 15) on the store whose
aggregate starts at 100; processing p then q, or q then p, both end with
the aggregate at 125. -/
theorem updatePoolLiquidity_global_delta_witness :
    ((updatePoolLiquidity ["USDC"] ((updatePoolLiquidity ["USDC"] sGlobal "p" 1 0).2)
        "q" 2 0).2).balancer.totalLiquidity = 125 ∧
    ((updatePoolLiquidity ["USDC"] ((updatePoolLiquidity ["USDC"] sGlobal "q" 1 0).2)
        "p" 2 0).2).balancer.totalLiquidity = 125 := by
  constructor
  · have hcc := updatePoolLiquidity_commit_core ["USDC"] sGlobal "p" 1 0 poolP rfl (by decide)
    have htk : ((updatePoolLiquidity ["USDC"] sGlobal "p" 1 0).2).tokens = sGlobal.tokens := by
      simp [updatePoolLiquidity, findRec, sGlobal, poolP, poolQ, emptyStore, updateBptPrice,
        createPoolSnapshot, saveBalancerSnapshot, saveToken, ZERO_BD]
    have h := updatePoolLiquidity_global_delta ["USDC"] sGlobal
      ((updatePoolLiquidity ["USDC"] sGlobal "p" 1 0).2) "p" "q" 1 2 0 0 poolP poolQ 10 15
      rfl (by decide)
      (by
        simp [poolValueUSDOf, tokenContribution, loadPoolToken, getToken, findRec, sGlobal,
          poolP, emptyStore, hasVirtualSupply, ZERO_BD])
      rfl
      (by
        rw [hcc.2.2.1]
        simp [upsert, findRec, sGlobal, poolP, poolQ, emptyStore])
      (by decide)
      (by
        rw [poolValueUSDOf_congr sGlobal _ "q" poolQ hcc.2.2.2.2 htk]
        simp [poolValueUSDOf, tokenContribution, loadPoolToken, getToken, findRec, sGlobal,
          poolQ, emptyStore, hasVirtualSupply, ZERO_BD]
        all_goals norm_num)
    rw [h]
    norm_num [sGlobal, emptyStore]
  · have hcc := updatePoolLiquidity_commit_core ["USDC"] sGlobal "q" 1 0 poolQ rfl (by decide)
    have htk : ((updatePoolLiquidity ["USDC"] sGlobal "q" 1 0).2).tokens = sGlobal.tokens := by
      simp [updatePoolLiquidity, findRec, sGlobal, poolP, poolQ, emptyStore, updateBptPrice,
        createPoolSnapshot, saveBalancerSnapshot, saveToken, ZERO_BD]
    have h := updatePoolLiquidity_global_delta ["USDC"] sGlobal
      ((updatePoolLiquidity ["USDC"] sGlobal "q" 1 0).2) "q" "p" 1 2 0 0 poolQ poolP 15 10
      rfl (by decide)
      (by
        simp [poolValueUSDOf, tokenContribution, loadPoolToken, getToken, findRec, sGlobal,
          poolQ, emptyStore, hasVirtualSupply, ZERO_BD]
        all_goals norm_num)
      rfl
      (by
        rw [hcc.2.2.1]
        simp [upsert, findRec, sGlobal, poolP, poolQ, emptyStore])
      (by decide)
      (by
        rw [poolValueUSDOf_congr sGlobal _ "p" poolP hcc.2.2.2.2 htk]
        simp [poolValueUSDOf, tokenContribution, loadPoolToken, getToken, findRec, sGlobal,
          poolP, emptyStore, hasVirtualSupply, ZERO_BD])
    rw [h]
    norm_num [sGlobal, emptyStore]

end BalancerPricing
